import Mathlib

/-!
Shallow embedding of the resilient model-invocation and conversation-state
subsystem of the `agents` repository, together with theorems settling the
frozen claims about it.

The embedding follows the Python sources:
  * `app/services/llm_registry.py`  — `LLMRegistry` (static model catalog);
  * `app/services/llm_service.py`   — `LLMService` (retry + circular fallback);
  * `app/utils/graph.py`            — `prepare_messages` (context-window prep);
  * `app/schemas/chat.py`           — `Message` (validated chat message);
  * `app/core/langgraph/graph.py`   — the chat node of the turn state machine.

`app/core/config.py` is not among the sources, so every configuration value
the code reads from `settings` (default provider, max retries per model,
token budget) appears here as an explicit parameter, per the configuration
surface the spec describes.

Python dictionaries are embedded as association lists (`List (String × _)`,
insertion-ordered, as Python dicts are); `d[k]` raising `KeyError` is
embedded as an `Option`/`Except` lookup; raised exceptions are embedded as
`Except` error results.
-/

set_option autoImplicit false
set_option linter.unusedVariables false

deriving instance DecidableEq for Except

/-- A pre-constructed chat-model client object (`ChatGroq(...)` /
`ChatOpenAI(...)` in the source). Only its identity matters to the embedded
operations — the registry stores each object once and `get` returns it
unchanged — so the constructor keyword arguments that are never read back
(temperature, token caps, reasoning options) are not carried. -/
structure ChatModel where
  cls : String
  model : String
deriving DecidableEq, Repr, Inhabited

/-- One entry of `LLMRegistry.LLMS[provider]`: a Python dict with keys
`"name"`, `"llm"` and `"extra_details"`. The long free-form usage notes
stored under `"extra_details"` are inert data (never read by any embedded
operation) and are elided to `""`. -/
structure ModelEntry where
  name : String
  llm : ChatModel
  extra_details : String
deriving DecidableEq, Repr, Inhabited

/-- A value stored in a model-entry dict, for embedding Python subscript
access `e[key]` (which raises `KeyError` on a missing key). -/
inductive EntryField where
  | str (s : String)
  | obj (m : ChatModel)
deriving DecidableEq, Repr

/-- Python subscript access on a model-entry dict: the keys present are
exactly `"name"`, `"llm"` and `"extra_details"`; any other key is absent
(`none`, i.e. `KeyError`). -/
def ModelEntry.item (e : ModelEntry) (key : String) : Option EntryField :=
  if key = "name" then some (.str e.name)
  else if key = "llm" then some (.obj e.llm)
  else if key = "extra_details" then some (.str e.extra_details)
  else none

/-- Rendering of an entry-dict value inside an f-string. -/
def EntryField.asString : EntryField → String
  | .str s => s
  | .obj m => m.cls ++ " object"

/-- The registry type: an insertion-ordered mapping
provider → ordered sequence of model entries. -/
abbrev Registry := List (String × List ModelEntry)

/-- Python `str.lower()` (ASCII case folding suffices for the provider keys
involved), written over the character list so it evaluates by kernel
reduction. -/
def pyLower (s : String) : String :=
  String.mk (s.toList.map Char.toLower)

/-- Python `d[k]` on a dict embedded as an association list: `some` the
first value whose key equals `k`, `none` (`KeyError`) otherwise. -/
def dictGet {α : Type} (d : List (String × α)) (k : String) : Option α :=
  (d.find? (fun kv => kv.1 == k)).map (fun kv => kv.2)

/-- Python `d.get(k, dflt)`. -/
def dictGetD {α : Type} (d : List (String × α)) (k : String) (dflt : α) : α :=
  (dictGet d k).getD dflt

/-- Python `d.keys()` (in insertion order). -/
def dictKeys {α : Type} (d : List (String × α)) : List String :=
  d.map (fun kv => kv.1)

/-- Exceptions raised by the registry code, embedded as data. -/
inductive PyError where
  | valueErrorInvalidProvider (provider : String)
  | valueErrorModelNotFound (model : String) (available : List String)
  | keyError (key : String)
  | indexError
deriving DecidableEq, Repr

/-- The message string each registry exception is constructed with
(`raise ValueError(f"...")` in the source). -/
def PyError.message : PyError → String
  | .valueErrorInvalidProvider p => "Invalid Provider: " ++ p
  | .valueErrorModelNotFound m available =>
      "model " ++ m ++ " not found in registry. available models: "
        ++ String.intercalate ", " available
  | .keyError k => "KeyError: " ++ k
  | .indexError => "IndexError: list index out of range"

namespace LLMRegistry

/-- Embedding of `LLMRegistry.LLMS` from `app/services/llm_registry.py`: the static,
insertion-ordered catalog — four groq entries, three openai entries, and an
empty gemini list. -/
def LLMS : Registry :=
  [ ("groq",
      [ { name := "qwen/qwen3-32b",
          llm := { cls := "ChatGroq", model := "qwen/qwen3-32b" },
          extra_details := "" },
        { name := "moonshotai/kimi-k2-instruct-0905",
          llm := { cls := "ChatGroq", model := "moonshotai/kimi-k2-instruct-0905" },
          extra_details := "" },
        { name := "openai/gpt-oss-120b",
          llm := { cls := "ChatGroq", model := "openai/gpt-oss-120b" },
          extra_details := "" },
        { name := "openai/gpt-oss-20b",
          llm := { cls := "ChatGroq", model := "openai/gpt-oss-20b" },
          extra_details := "" } ]),
    ("openai",
      [ { name := "gpt-5-mini",
          llm := { cls := "ChatOpenAI", model := "gpt-5-mini" },
          extra_details := "" },
        { name := "gpt-4o",
          llm := { cls := "ChatOpenAI", model := "gpt-4o" },
          extra_details := "" },
        { name := "gpt-4o-mini",
          llm := { cls := "ChatOpenAI", model := "gpt-4o-mini" },
          extra_details := "" } ]),
    ("gemini", []) ]

/-- The fully-qualified-name accumulation of `get_all_names(None)` over one
provider's entries: Python evaluates `e["names"]` inside the f-string, which
raises `KeyError` when the key is absent. -/
def qualifiedNames (provider : String) : List ModelEntry → Except PyError (List String)
  | [] => .ok []
  | e :: es =>
      match e.item "names" with
      | none => .error (.keyError "names")
      | some v =>
          match qualifiedNames provider es with
          | .error err => .error err
          | .ok rest => .ok ((provider ++ "/" ++ v.asString) :: rest)

/-- The same accumulation over all providers, in insertion order. -/
def qualifiedNamesAll : Registry → Except PyError (List String)
  | [] => .ok []
  | (provider, entries) :: rest =>
      match qualifiedNames provider entries with
      | .error err => .error err
      | .ok here =>
          match qualifiedNamesAll rest with
          | .error err => .error err
          | .ok there => .ok (here ++ there)

/-- Embedding of `LLMRegistry.get_all_names` from `app/services/llm_registry.py`.
With a provider it returns that provider's (lower-cased key) plain names
via `LLMS.get(provider, [])`; with `None` it builds fully-qualified
`provider/name` strings — via the subscript `e["names"]`, exactly as the
source writes it. -/
def get_all_names (llms : Registry) : Option String → Except PyError (List String)
  | some llm_provider =>
      .ok ((dictGetD llms (pyLower llm_provider) []).map (fun e => e.name))
  | none => qualifiedNamesAll llms

/-- Embedding of `LLMRegistry.get` from `app/services/llm_registry.py`: membership check
on the lower-cased provider, then a subscript access `LLMS[llm_provider]`
with the provider as given (a `KeyError` when the exact key is absent), then
a linear search for the entry named `model_name`; the not-found error lists
the provider's available model names. The `**kwargs` parameter is accepted
and never used, as in the source. -/
def get (llms : Registry) (llm_provider model_name : String)
    (kwargs : List (String × String)) : Except PyError ChatModel :=
  if ¬ (dictKeys llms).contains (pyLower llm_provider) then
    .error (.valueErrorInvalidProvider llm_provider)
  else
    match dictGet llms llm_provider with
    | none => .error (.keyError llm_provider)
    | some entries =>
        match entries.find? (fun e => e.name == model_name) with
        | some entry => .ok entry.llm
        | none =>
            match get_all_names llms (some llm_provider) with
            | .error err => .error err
            | .ok available => .error (.valueErrorModelNotFound model_name available)

/-- Embedding of `LLMRegistry.get_model_at_index` from `app/services/llm_registry.py`:
when `0 <= index < len(get_all_names(defaultProvider))`, index into
`LLMS[defaultProvider]` (subscript access: `KeyError` on a missing key,
`IndexError` out of bounds); otherwise fall back to `LLMS["groq"][0]`,
the hard-coded default. `defaultProvider` stands for
`settings.DEFAULT_LLM_PROVIDER`, whose defining module is not among the
sources. -/
def get_model_at_index (llms : Registry) (defaultProvider : String)
    (index : Int) : Except PyError ModelEntry :=
  let names := (dictGetD llms (pyLower defaultProvider) []).map (fun e => e.name)
  if 0 ≤ index ∧ index < (names.length : Int) then
    match dictGet llms defaultProvider with
    | none => .error (.keyError defaultProvider)
    | some entries =>
        if index.toNat < entries.length then .ok (entries.getD index.toNat default)
        else .error .indexError
  else
    match dictGet llms "groq" with
    | none => .error (.keyError "groq")
    | some [] => .error .indexError
    | some (e :: _) => .ok e

end LLMRegistry

example : LLMRegistry.get_all_names LLMRegistry.LLMS (some "groq")
    = .ok ["qwen/qwen3-32b", "moonshotai/kimi-k2-instruct-0905",
           "openai/gpt-oss-120b", "openai/gpt-oss-20b"] := by decide

example : LLMRegistry.get_all_names LLMRegistry.LLMS none
    = .error (.keyError "names") := by decide

example : LLMRegistry.get LLMRegistry.LLMS "openai" "gpt-4o" []
    = .ok { cls := "ChatOpenAI", model := "gpt-4o" } := by decide

example : LLMRegistry.get LLMRegistry.LLMS "GROQ" "qwen/qwen3-32b" []
    = .error (.keyError "GROQ") := by decide

example : LLMRegistry.get_model_at_index LLMRegistry.LLMS "groq" 7
    = .ok { name := "qwen/qwen3-32b",
            llm := { cls := "ChatGroq", model := "qwen/qwen3-32b" },
            extra_details := "" } := by decide

/-! ## `LLMService` (`app/services/llm_service.py`)

The service's network effect — `self._llm.ainvoke(messages)` — is embedded
as a behaviour function `beh : ChatModel → Nat → Except LLMError α` giving
the outcome of attempt number `j` (0-based) against a given client object.
The mutable service fields `_llm` / `_current_model_index` form `LLMState`.
`settings.MAX_LLM_CALL_RETRIES` (the tenacity `stop_after_attempt` bound)
and `settings.DEFAULT_LLM_PROVIDER` are explicit parameters, their defining
module not being among the sources. -/

/-- The exception classes an LLM attempt can raise, as classified by
`_call_with_retry`: the tenacity decorator retries exactly on
`(RateLimitError, APITimeoutError, APIError)`; a plain `OpenAIError` (or
the `RuntimeError` guarding an uninitialised client) is not retried. -/
inductive LLMError where
  | rateLimitError
  | apiTimeoutError
  | apiError
  | openAIError
  | runtimeErrorNotInitialized
deriving DecidableEq, Repr

/-- Membership in the tenacity `retry_if_exception_type` tuple
`(RateLimitError, APITimeoutError, APIError)`. -/
def LLMError.isTransient : LLMError → Bool
  | .rateLimitError => true
  | .apiTimeoutError => true
  | .apiError => true
  | .openAIError => false
  | .runtimeErrorNotInitialized => false

/-- The mutable fields of `LLMService`: `_llm` and `_current_model_index`. -/
structure LLMState where
  llm : Option ChatModel
  currentIndex : Nat
deriving DecidableEq, Repr

/-- Failures of `LLMService.call`, embedded as data: a propagated registry
exception, or the final
`RuntimeError("Failed to get response from any LLM ...")` carrying the
number of models tried and the last underlying error. -/
inductive CallError where
  | py (e : PyError)
  | exhausted (modelsTried : Nat) (lastError : Option LLMError)
deriving DecidableEq, Repr

namespace LLMService

/-- One attempt of `_call_with_retry`'s body: raise `RuntimeError` if
`self._llm` is unset, otherwise `await self._llm.ainvoke(messages)` with
outcome given by the behaviour function. -/
def attemptOn {α : Type} (beh : ChatModel → Nat → Except LLMError α)
    (st : LLMState) (j : Nat) : Except LLMError α :=
  match st.llm with
  | none => .error .runtimeErrorNotInitialized
  | some m => beh m j

/-- The tenacity retry loop: run attempt `i`; on success stop; on a
transient error retry while attempts remain; on any other error stop at
once (`reraise=True` re-raises the last error). The second component is
the number of attempts actually made. -/
def retryGo {α : Type} (attempt : Nat → Except LLMError α) :
    Nat → Nat → Except LLMError α × Nat
  | 0, i =>
      (match attempt i with
       | .ok r => .ok r
       | .error e => .error e, i + 1)
  | remaining + 1, i =>
      match attempt i with
      | .ok r => (.ok r, i + 1)
      | .error e =>
          if e.isTransient then retryGo attempt remaining (i + 1)
          else (.error e, i + 1)

/-- Embedding of `LLMService._call_with_retry` under
`@retry(stop=stop_after_attempt(maxRetries), retry=retry_if_exception_type(
(RateLimitError, APITimeoutError, APIError)), reraise=True)`: up to
`maxRetries` attempts in total (tenacity counts the first attempt against
the cap). -/
def _call_with_retry {α : Type} (maxRetries : Nat)
    (attempt : Nat → Except LLMError α) : Except LLMError α × Nat :=
  retryGo attempt (maxRetries - 1) 0

/-- Embedding of `LLMService._switch_to_next_model`: advance circularly inside the
default provider's list and install that entry's client, returning `True`;
any exception (missing provider key, empty list making the modulus zero)
is caught and yields `False` with the state unchanged. -/
def _switch_to_next_model (llms : Registry) (provider : String)
    (st : LLMState) : Bool × LLMState :=
  match dictGet llms provider with
  | none => (false, st)
  | some entries =>
      if entries.length = 0 then (false, st)
      else
        let next := (st.currentIndex + 1) % entries.length
        let entry := entries.getD next default
        (true, { llm := some entry.llm, currentIndex := next })

/-- The explicit-override prologue of `LLMService.call` (its
`if model_provider and model_name:` block): fetch the requested pair from
the registry (exceptions propagate), then move the current index to the
pair's position in that provider's name list, leaving the index unchanged
when `.index` raises `ValueError`. -/
def applyOverride (llms : Registry)
    (ov : Option (String × String × List (String × String)))
    (st : LLMState) : Except PyError LLMState :=
  match ov with
  | none => .ok st
  | some (p, n, kw) =>
      match LLMRegistry.get llms p n kw with
      | .error e => .error e
      | .ok m =>
          match LLMRegistry.get_all_names llms (some p) with
          | .error e => .error e
          | .ok all_names =>
              let idx := all_names.findIdx? (fun s => s == n)
              .ok { llm := some m, currentIndex := idx.getD st.currentIndex }

/-- The `while models_tried < total_models` loop of `LLMService.call`.
`fuel` is the number of loop iterations still permitted
(`total - models_tried`, so the loop test is `fuel > 0`); `tried` is
`models_tried`; `sw` counts successful fallback switches (the
`model_switched` log events); `last` is `last_error`. On a failed attempt
the model counter is bumped; once it reaches `total`, or a switch fails,
the loop breaks and the final `RuntimeError` carries the counter and the
last error. -/
def callLoop {α : Type} (llms : Registry) (provider : String)
    (maxRetries : Nat) (beh : ChatModel → Nat → Except LLMError α)
    (total : Nat) : Nat → Nat → LLMState → Option LLMError → Nat →
    Except CallError α × LLMState × Nat
  | 0, tried, st, last, sw => (.error (.exhausted tried last), st, sw)
  | fuel + 1, tried, st, last, sw =>
      match _call_with_retry maxRetries (attemptOn beh st) with
      | (.ok r, _) => (.ok r, st, sw)
      | (.error e, _) =>
          if total ≤ tried + 1 then (.error (.exhausted (tried + 1) (some e)), st, sw)
          else
            match _switch_to_next_model llms provider st with
            | (false, st1) => (.error (.exhausted (tried + 1) (some e)), st1, sw)
            | (true, st1) => callLoop llms provider maxRetries beh total fuel (tried + 1) st1 (some e) (sw + 1)

/-- The retry/fallback stage of `LLMService.call`, entered after the
override prologue: `total_models = len(LLMRegistry.LLMS[provider])`
(a `KeyError` when the configured default provider is not a key), then the
fallback loop starting at `models_tried = 0`. -/
def callFromState {α : Type} (llms : Registry) (defaultProvider : String)
    (maxRetries : Nat) (beh : ChatModel → Nat → Except LLMError α)
    (st : LLMState) : Except CallError α × LLMState × Nat :=
  match dictGet llms defaultProvider with
  | none => (.error (.py (.keyError defaultProvider)), st, 0)
  | some entries =>
      callLoop llms defaultProvider maxRetries beh entries.length entries.length 0 st none 0

/-- Embedding of `LLMService.call`: override prologue, then the retry/fallback loop
against the configured default provider. The result carries the final
service state and the number of fallback switches performed. -/
def call {α : Type} (llms : Registry) (defaultProvider : String)
    (maxRetries : Nat) (beh : ChatModel → Nat → Except LLMError α)
    (ov : Option (String × String × List (String × String)))
    (st : LLMState) : Except CallError α × LLMState × Nat :=
  match applyOverride llms ov st with
  | .error e => (.error (.py e), st, 0)
  | .ok st1 => callFromState llms defaultProvider maxRetries beh st1

end LLMService

example :
    LLMService.call LLMRegistry.LLMS "groq" 3
      (fun _ _ => (.error .rateLimitError : Except LLMError Unit)) none
      { llm := some { cls := "ChatGroq", model := "qwen/qwen3-32b" }, currentIndex := 0 }
    = (.error (.exhausted 4 (some .rateLimitError)),
       { llm := some { cls := "ChatGroq", model := "openai/gpt-oss-20b" }, currentIndex := 3 },
       3) := by decide

example :
    LLMService.call LLMRegistry.LLMS "groq" 3
      (fun m _ => if m.model == "qwen/qwen3-32b" then (.error .openAIError : Except LLMError Nat) else .ok 7) none
      { llm := some { cls := "ChatGroq", model := "qwen/qwen3-32b" }, currentIndex := 0 }
    = (.ok 7,
       { llm := some { cls := "ChatGroq", model := "moonshotai/kimi-k2-instruct-0905" }, currentIndex := 1 },
       1) := by decide

/-! ## `Message` (`app/schemas/chat.py`)

The pydantic model validates, at the public boundary, a raw role string
against `Literal["user", "assistant", "system"]` and a content string
against `min_length=1, max_length=3000` plus a script-tag scan. -/

/-- The role values the pydantic `Literal` accepts. -/
inductive Role where
  | user
  | assistant
  | system
deriving DecidableEq, Repr

/-- A validated chat message. -/
structure Message where
  role : Role
  content : String
deriving DecidableEq, Repr

/-- Validation of the raw role string against
`Literal["user", "assistant", "system"]`. -/
def parseRole (s : String) : Option Role :=
  if s = "user" then some .user
  else if s = "assistant" then some .assistant
  else if s = "system" then some .system
  else none

/-- Whether the first list begins with the second as a prefix of it. -/
def listStartsWith : List Char → List Char → Bool
  | _, [] => true
  | [], _ :: _ => false
  | a :: as, b :: bs => a == b && listStartsWith as bs

/-- Index of the first occurrence of `needle` as a contiguous sublist. -/
def findSubIdx (needle : List Char) : List Char → Option Nat
  | [] => if needle.isEmpty then some 0 else none
  | a :: as =>
      if listStartsWith (a :: as) needle then some 0
      else (findSubIdx needle as).map (fun i => i + 1)

/-- The `validate_content` regex test
`re.search(r"<script.*?>.*?</script>", v, re.IGNORECASE | re.DOTALL)`:
after case folding, some occurrence of `<script`, then a later `>`, then a
later `</script>`. Taking the earliest candidate at each stage is complete,
since an earlier starting point leaves a longer remainder to match in. -/
def containsScriptTag (s : String) : Bool :=
  let cs := (pyLower s).toList
  match findSubIdx "<script".toList cs with
  | none => false
  | some i =>
      let afterOpen := cs.drop (i + 7)
      match findSubIdx [ '>' ] afterOpen with
      | none => false
      | some j => (findSubIdx "</script>".toList (afterOpen.drop (j + 1))).isSome

/-- Construction of a `Message` through the pydantic boundary: role must
parse, content must satisfy `min_length=1`, `max_length=3000` and the
`validate_content` script-tag check; `none` embeds a pydantic
`ValidationError`. -/
def Message.build (role content : String) : Option Message :=
  match parseRole role with
  | none => none
  | some r =>
      if content.length < 1 then none
      else if 3000 < content.length then none
      else if containsScriptTag content then none
      else some { role := r, content := content }

example : Message.build "tool" "tool output" = none := by decide

example : Message.build "user" "<sCrIpT>alert(1)</script>" = none := by decide

example : Message.build "assistant" "hello" = some { role := .assistant, content := "hello" } := by decide

/-! ## `prepare_messages` (`app/utils/graph.py`)

The injected token counter (the target model's own tokenizer) is a function
`counter : Message → Option Message`-count; `none` embeds the counter
failing on an unsupported content shape — the
`ValueError("Unrecognized content block type ...")` that
`langchain_core.trim_messages` raises and that `prepare_messages` catches.
`trim_messages` itself is library code outside the repository sources.
Modelled from the spec: with `strategy="last"`, `start_on="human"`,
`include_system=False`, `allow_partial=False`, trimming selects the longest
suffix of the history that begins at a user message and whose token count
does not exceed the budget; a counting failure anywhere in the history
raises the unrecognized-content-block error. -/

/-- The one trimming failure `prepare_messages` handles: the counter hit an
unsupported content shape. -/
inductive TrimError where
  | unrecognizedContentBlock
deriving DecidableEq, Repr

/-- Token count of a message sequence: the sum of the injected counter over
its members, failing if the counter fails on any member. -/
def sumTokens (counter : Message → Option Nat) : List Message → Option Nat
  | [] => some 0
  | m :: rest =>
      match counter m, sumTokens counter rest with
      | some a, some b => some (a + b)
      | _, _ => none

/-- Modelled from the spec: `langchain_core.messages.trim_messages` with
`strategy="last"`, `token_counter=llm`, `max_tokens=maxTokens`,
`start_on="human"`, `include_system=False`, `allow_partial=False` — the
longest suffix beginning at a user message and fitting the budget, or the
unrecognized-content-block error when counting fails. -/
def trim_messages (counter : Message → Option Nat) (maxTokens : Nat) :
    List Message → Except TrimError (List Message)
  | [] => .ok []
  | m :: rest =>
      match sumTokens counter (m :: rest) with
      | none => .error .unrecognizedContentBlock
      | some t =>
          if m.role = Role.user ∧ t ≤ maxTokens then .ok (m :: rest)
          else trim_messages counter maxTokens rest

/-- Failures `prepare_messages` itself can raise: the pydantic
`ValidationError` from constructing `Message(role="system",
content=system_prompt)` on the return line. -/
inductive PrepError where
  | validationError
deriving DecidableEq, Repr

/-- Embedding of `prepare_messages` from `app/utils/graph.py`: trim the history to the
budget; when trimming fails with the unrecognized-content-block error, skip
trimming and keep the entire history; then prepend
`Message(role="system", content=system_prompt)` — a pydantic construction
that validates the prompt (`min_length=1`, `max_length=3000`, script-tag
scan) and raises `ValidationError` when it fails, on either path.
`maxTokens` stands for `settings.MAX_TOKENS`, whose defining module is not
among the sources. -/
def prepare_messages (counter : Message → Option Nat) (maxTokens : Nat)
    (system_prompt : String) (messages : List Message) :
    Except PrepError (List Message) :=
  match trim_messages counter maxTokens messages with
  | .ok trimmed =>
      match Message.build "system" system_prompt with
      | none => .error .validationError
      | some sysMsg => .ok (sysMsg :: trimmed)
  | .error .unrecognizedContentBlock =>
      match Message.build "system" system_prompt with
      | none => .error .validationError
      | some sysMsg => .ok (sysMsg :: messages)

/-! ## The chat node (`app/core/langgraph/graph.py`)

Modelled from the spec: the `_chat` node body at the cited lines is present
only as a commented-out block in the source file; the definition below
follows that block, with the `add_messages` reducer of
`app/schemas/graph.py` embedded as list append, as the `GraphState` comment
describes ("append it to the list rather than overwriting it"). -/

/-- A tool-call request carried by a model response. -/
structure ToolCall where
  name : String
  args : String
  id : String
deriving DecidableEq, Repr

/-- A model response: text content plus the tool-call requests it carries. -/
structure AIResponse where
  content : String
  tool_calls : List ToolCall
deriving DecidableEq, Repr

/-- An entry of `GraphState.messages`. -/
inductive GraphMsg where
  | human (content : String)
  | ai (response : AIResponse)
  | system (content : String)
  | tool (callId : String) (content : String)
deriving DecidableEq, Repr

/-- Where the chat node routes next: the `tool_call` node or `END`. -/
inductive GraphRoute where
  | tool_call
  | endOfTurn
deriving DecidableEq, Repr

/-- Modelled from the spec and the commented-out `_chat` body: return
`Command(update={"messages": [response]}, goto=...)`, routing to
`tool_call` exactly when the response carries tool calls, and the reducer
appends the response to the existing history. -/
def chatNode (state : List GraphMsg) (response : AIResponse) :
    List GraphMsg × GraphRoute :=
  (state ++ [GraphMsg.ai response],
   if response.tool_calls.isEmpty then GraphRoute.endOfTurn else GraphRoute.tool_call)

/-! ## Claim theorems -/

/-- C5 (code_bug evidence). Invoking `get_all_names` with the provider
omitted on the shipped registry raises `KeyError: "names"`: the entry dicts
define the key `"name"`, but the f-string accesses `e["names"]` — the
function never produces the fully-qualified `provider/name` strings its
docstring promises. -/
theorem c5_all_names_keyerror :
    LLMRegistry.get_all_names LLMRegistry.LLMS none
      = .error (.keyError "names") := by decide

/-- C10 (confirmed). `LLMRegistry.get` accepts keyword overrides and
ignores them entirely, so any `kwargs` yield the identical pre-constructed
model instance as no `kwargs`; consequently `LLMService.call` with an
override carrying `model_kwargs` behaves exactly as with none. -/
theorem c10_kwargs_ignored :
    (∀ (p n : String) (kw : List (String × String)),
      LLMRegistry.get LLMRegistry.LLMS p n kw = LLMRegistry.get LLMRegistry.LLMS p n [])
    ∧ (∀ (α : Type) (dp : String) (K : Nat) (beh : ChatModel → Nat → Except LLMError α)
        (p n : String) (kw : List (String × String)) (st : LLMState),
      LLMService.call LLMRegistry.LLMS dp K beh (some (p, n, kw)) st
        = LLMService.call LLMRegistry.LLMS dp K beh (some (p, n, [])) st) :=
  ⟨fun _ _ _ => rfl, fun _ _ _ _ _ _ _ _ => rfl⟩

/-- C4 (counterexample). A message with role `"tool"` is rejected by the
`Message` schema: the pydantic `Literal` covers only
`user`/`assistant`/`system`, so the tool-result linkage the claim requires
is not representable. -/
theorem c4_tool_role_rejected : Message.build "tool" "tool output" = none := by
  decide

/-- C4 (amended). Every `Message` accepted at the public interface has a
role drawn from the fixed set `user`/`assistant`/`system` — the role
`"tool"` is not accepted — and non-empty content of at most 3000
characters. -/
theorem c4_role_and_content_invariant :
    (∀ (role content : String) (m : Message),
      Message.build role content = some m →
      (role = "user" ∨ role = "assistant" ∨ role = "system")
        ∧ 1 ≤ content.length ∧ content.length ≤ 3000 ∧ m.content = content)
    ∧ parseRole "tool" = none := by
  constructor
  · intro role content m h
    unfold Message.build at h
    rcases hr : parseRole role with _ | r
    · rw [hr] at h; cases h
    · rw [hr] at h
      have hrole : role = "user" ∨ role = "assistant" ∨ role = "system" := by
        unfold parseRole at hr
        split_ifs at hr with h1 h2 h3
        · exact Or.inl h1
        · exact Or.inr (Or.inl h2)
        · exact Or.inr (Or.inr h3)
      split_ifs at h with hlen1 hlen2 hscript
      · cases h
        exact ⟨hrole, Nat.one_le_iff_ne_zero.mpr (by omega), by omega, rfl⟩
  · decide

/-- C4 witness: the amended invariant evaluated at a concrete accepted
message. -/
theorem c4_role_and_content_invariant_witness :
    ("user" = "user" ∨ "user" = "assistant" ∨ "user" = "system")
      ∧ 1 ≤ ("hi" : String).length ∧ ("hi" : String).length ≤ 3000
      ∧ ({ role := Role.user, content := "hi" } : Message).content = "hi" :=
  c4_role_and_content_invariant.1 "user" "hi"
    { role := Role.user, content := "hi" } (by decide)

/-- C8 (confirmed, spec-modelled). The chat node always appends the
model response to the conversation state — prior history is preserved as a
prefix — and routes to the tool node exactly when the response carries at
least one tool-call request, otherwise ending the turn. -/
theorem c8_chat_append_and_route :
    ∀ (state : List GraphMsg) (r : AIResponse),
      (chatNode state r).1 = state ++ [GraphMsg.ai r]
        ∧ ((chatNode state r).2 = GraphRoute.tool_call ↔ r.tool_calls ≠ [])
        ∧ ((chatNode state r).2 = GraphRoute.endOfTurn ↔ r.tool_calls = []) := by
  intro state r
  refine ⟨rfl, ?_, ?_⟩ <;>
    rcases h : r.tool_calls with _ | ⟨a, as⟩ <;>
      simp [chatNode, h]

/-- Splitting a successful count of a non-empty sequence into the head's
count and the tail's count. -/
theorem sumTokens_cons_some (counter : Message → Option Nat) (m : Message)
    (rest : List Message) (t : Nat)
    (h : sumTokens counter (m :: rest) = some t) :
    ∃ a b, counter m = some a ∧ sumTokens counter rest = some b ∧ t = a + b := by
  unfold sumTokens at h
  rcases hc : counter m with _ | a <;> rw [hc] at h
  · cases h
  · rcases hs : sumTokens counter rest with _ | b <;> rw [hs] at h
    · cases h
    · cases h
      exact ⟨a, b, rfl, rfl, rfl⟩

/-- When the whole history counts successfully, trimming succeeds and
returns a suffix of the history whose count fits the budget. -/
theorem trim_messages_ok (counter : Message → Option Nat) (maxTokens : Nat) :
    ∀ (msgs : List Message) (t0 : Nat), sumTokens counter msgs = some t0 →
      ∃ tr, trim_messages counter maxTokens msgs = .ok tr
        ∧ (∃ pre, pre ++ tr = msgs)
        ∧ ∃ n, sumTokens counter tr = some n ∧ n ≤ maxTokens := by
  intro msgs
  induction msgs with
  | nil =>
      intro t0 h
      exact ⟨[], rfl, ⟨[], rfl⟩, 0, rfl, Nat.zero_le _⟩
  | cons m rest ih =>
      intro t0 h
      rw [trim_messages.eq_2]
      simp only [h]
      by_cases hcond : m.role = Role.user ∧ t0 ≤ maxTokens
      · rw [if_pos hcond]
        exact ⟨m :: rest, rfl, ⟨[], rfl⟩, t0, h, hcond.2⟩
      · rw [if_neg hcond]
        obtain ⟨a, b, hca, hsb, ht⟩ := sumTokens_cons_some counter m rest t0 h
        obtain ⟨tr, htr, ⟨pre, hpre⟩, n, hn, hnle⟩ := ih b hsb
        exact ⟨tr, htr, ⟨m :: pre, by rw [List.cons_append, hpre]⟩, n, hn, hnle⟩

/-- When counting the history fails, trimming raises the
unrecognized-content-block error. -/
theorem trim_messages_err (counter : Message → Option Nat) (maxTokens : Nat)
    (msgs : List Message) (h : sumTokens counter msgs = none) :
    trim_messages counter maxTokens msgs = .error .unrecognizedContentBlock := by
  cases msgs with
  | nil => cases h
  | cons m rest =>
      rw [trim_messages.eq_2]
      simp only [h]

/-- C2 counterexample to the claim as stated: a third outcome exists.
With an empty system prompt the pydantic construction
`Message(role="system", content=system_prompt)` on the return line fails
its `min_length=1` check, so `prepare_messages` raises `ValidationError`
instead of returning either of the claim's two outcomes — here even though
the history is trivially within budget. -/
theorem c2_empty_prompt_counterexample :
    prepare_messages (fun _ => some 1) 10 "" [] = .error .validationError := by
  decide

/-- C2 (amended). Whenever the system prompt itself passes `Message`
validation, `prepare_messages` returns the validated system message
followed either by a suffix of the history whose counted size (excluding
the system prompt) is within the budget, or — exactly when token counting
fails on the history — by the entire untrimmed history, with no further
outcome; a system prompt failing validation instead raises
`ValidationError` on either path. -/
theorem c2_prepare_budget_or_fallback :
    ∀ (counter : Message → Option Nat) (maxTokens : Nat)
      (system_prompt : String) (msgs : List Message),
      (∀ sysMsg, Message.build "system" system_prompt = some sysMsg →
        ∃ t, prepare_messages counter maxTokens system_prompt msgs = .ok (sysMsg :: t)
          ∧ (((∃ pre, pre ++ t = msgs)
                ∧ ∃ n, sumTokens counter t = some n ∧ n ≤ maxTokens)
             ∨ (sumTokens counter msgs = none ∧ t = msgs)))
      ∧ (Message.build "system" system_prompt = none →
          prepare_messages counter maxTokens system_prompt msgs
            = .error .validationError) := by
  intro counter maxTokens system_prompt msgs
  constructor
  · intro sysMsg hb
    by_cases hs : sumTokens counter msgs = none
    · refine ⟨msgs, ?_, Or.inr ⟨hs, rfl⟩⟩
      unfold prepare_messages
      rw [trim_messages_err counter maxTokens msgs hs]
      simp only [hb]
    · obtain ⟨t0, ht0⟩ := Option.ne_none_iff_exists.mp hs
      obtain ⟨tr, htr, hsuf, hfit⟩ := trim_messages_ok counter maxTokens msgs t0 ht0.symm
      refine ⟨tr, ?_, Or.inl ⟨hsuf, hfit⟩⟩
      unfold prepare_messages
      rw [htr]
      simp only [hb]
  · intro hb
    unfold prepare_messages
    rcases htr : trim_messages counter maxTokens msgs with er | tr
    · cases er
      simp only [hb]
    · simp only [hb]

/-- C2 witness: the amended behaviour evaluated at a concrete valid system
prompt and empty history. -/
theorem c2_prepare_budget_or_fallback_witness :
    ∃ t, prepare_messages (fun _ => some 1) 10 "sys" []
          = .ok (({ role := Role.system, content := "sys" } : Message) :: t)
      ∧ (((∃ pre, pre ++ t = ([] : List Message))
            ∧ ∃ n, sumTokens (fun _ => some 1) t = some n ∧ n ≤ 10)
         ∨ (sumTokens (fun _ => some 1) ([] : List Message) = none ∧ t = [])) :=
  (c2_prepare_budget_or_fallback (fun _ => some 1) 10 "sys" []).1
    { role := Role.system, content := "sys" } (by decide)

/-- A first attempt that succeeds ends the retry wrapper at once. -/
theorem call_with_retry_first_ok {α : Type} (K : Nat)
    (attempt : Nat → Except LLMError α) (r : α) (h : attempt 0 = .ok r) :
    LLMService._call_with_retry K attempt = (.ok r, 1) := by
  unfold LLMService._call_with_retry
  cases hK : K - 1 with
  | zero => rw [LLMService.retryGo.eq_1]; rw [h]
  | succ k => rw [LLMService.retryGo.eq_2]; rw [h]

/-- A first attempt that fails non-transiently ends the retry wrapper at
once with that error: no retry happens, whatever the attempt cap. -/
theorem call_with_retry_nontransient {α : Type} (K : Nat)
    (attempt : Nat → Except LLMError α) (e : LLMError)
    (h : attempt 0 = .error e) (ht : e.isTransient = false) :
    LLMService._call_with_retry K attempt = (.error e, 1) := by
  unfold LLMService._call_with_retry
  cases hK : K - 1 with
  | zero => rw [LLMService.retryGo.eq_1]; rw [h]
  | succ k =>
      rw [LLMService.retryGo.eq_2]
      rw [h]
      simp only [ht, Bool.false_eq_true, if_false]

/-- When every attempt fails transiently, the retry wrapper makes exactly
`remaining + 1` attempts from attempt `i` and re-raises the last error. -/
theorem retryGo_all_transient {α : Type} (attempt : Nat → Except LLMError α)
    (h : ∀ j, ∃ e, attempt j = .error e ∧ e.isTransient = true) :
    ∀ (remaining i : Nat), ∃ e,
      LLMService.retryGo attempt remaining i = (.error e, i + remaining + 1)
        ∧ e.isTransient = true := by
  intro remaining
  induction remaining with
  | zero =>
      intro i
      obtain ⟨e, he, het⟩ := h i
      refine ⟨e, ?_, het⟩
      rw [LLMService.retryGo.eq_1, he]
  | succ rem ih =>
      intro i
      obtain ⟨e, he, het⟩ := h i
      obtain ⟨e1, he1, het1⟩ := ih (i + 1)
      refine ⟨e1, ?_, het1⟩
      rw [LLMService.retryGo.eq_2, he]
      simp only [het, if_true]
      rw [he1]
      congr 1
      omega

/-- When every attempt fails transiently, the retry wrapper fails with a
transient error (after `maxRetries` attempts for a positive cap). -/
theorem call_with_retry_all_transient {α : Type} (K : Nat)
    (attempt : Nat → Except LLMError α)
    (h : ∀ j, ∃ e, attempt j = .error e ∧ e.isTransient = true) :
    ∃ e n, LLMService._call_with_retry K attempt = (.error e, n)
      ∧ e.isTransient = true := by
  obtain ⟨e, he, het⟩ := retryGo_all_transient attempt h (K - 1) 0
  exact ⟨e, 0 + (K - 1) + 1, by rw [LLMService._call_with_retry, he], het⟩

/-- When the provider is registered with a non-empty model list and every
model fails transiently on every attempt, the fallback loop consumes all its
fuel: each iteration exhausts one model's retries, every iteration but the
last performs one switch, and the loop ends with the exhausted error
carrying the last (transient) underlying error. -/
theorem callLoop_all_transient {α : Type} (llms : Registry) (provider : String)
    (K : Nat) (beh : ChatModel → Nat → Except LLMError α)
    (entries : List ModelEntry) (hget : dictGet llms provider = some entries)
    (hbeh : ∀ m j, ∃ e, beh m j = .error e ∧ e.isTransient = true) :
    ∀ (fuel : Nat), ∀ (tried : Nat) (st : LLMState) (last : Option LLMError) (sw : Nat),
      st.llm.isSome = true → tried + fuel = entries.length → 1 ≤ fuel →
      ∃ e st1, LLMService.callLoop llms provider K beh entries.length fuel tried st last sw
          = (.error (.exhausted entries.length (some e)), st1, sw + (fuel - 1))
        ∧ e.isTransient = true := by
  intro fuel
  induction fuel with
  | zero =>
      intro tried st last sw hllm htot hge
      omega
  | succ f ih =>
      intro tried st last sw hllm htot hge
      obtain ⟨m, hm⟩ := Option.isSome_iff_exists.mp hllm
      have hatt : ∀ j, ∃ e, LLMService.attemptOn beh st j = .error e
          ∧ e.isTransient = true := by
        intro j
        unfold LLMService.attemptOn
        rw [hm]
        exact hbeh m j
      obtain ⟨e, n, hcr, het⟩ :=
        call_with_retry_all_transient K (LLMService.attemptOn beh st) hatt
      rw [LLMService.callLoop.eq_2, hcr]
      simp only []
      rcases Nat.eq_zero_or_pos f with hf0 | hfpos
      · subst hf0
        have hlen : tried + 1 = entries.length := by omega
        refine ⟨e, st, ?_, het⟩
        rw [if_pos (by omega : entries.length ≤ tried + 1), hlen]
        simp
      · rw [if_neg (by omega : ¬ entries.length ≤ tried + 1)]
        have hsw : LLMService._switch_to_next_model llms provider st
            = (true, { llm := some (entries.getD ((st.currentIndex + 1) % entries.length) default).llm,
                       currentIndex := (st.currentIndex + 1) % entries.length }) := by
          unfold LLMService._switch_to_next_model
          simp only [hget]
          rw [if_neg (by omega : ¬ entries.length = 0)]
        rw [hsw]
        simp only []
        obtain ⟨e1, st2, hrec, het1⟩ :=
          ih (tried + 1)
            { llm := some (entries.getD ((st.currentIndex + 1) % entries.length) default).llm,
              currentIndex := (st.currentIndex + 1) % entries.length }
            (some e) (sw + 1) rfl (by omega) hfpos
        have harith : sw + 1 + (f - 1) = sw + (f + 1 - 1) := by omega
        rw [harith] at hrec
        exact ⟨e1, st2, hrec, het1⟩

/-- C1 (amended). With the configured default provider registered as a
non-empty list of N models, an initialised client, and every model failing
with a transient error on every attempt, `call` tries all N models, performs
exactly N − 1 fallback switches, and fails exactly once — with the
RuntimeError-kind exhausted error reporting N models tried and carrying the
last underlying (transient) error. -/
theorem c1_all_transient_n_minus_one_switches {α : Type} (llms : Registry)
    (dp : String) (K : Nat) (beh : ChatModel → Nat → Except LLMError α)
    (entries : List ModelEntry) (st : LLMState)
    (hget : dictGet llms dp = some entries) (hne : entries ≠ [])
    (hllm : st.llm.isSome = true)
    (hbeh : ∀ m j, ∃ e, beh m j = .error e ∧ e.isTransient = true) :
    ∃ e st1, LLMService.call llms dp K beh none st
        = (.error (.exhausted entries.length (some e)), st1, entries.length - 1)
      ∧ e.isTransient = true := by
  have hcall : LLMService.call llms dp K beh none st
      = LLMService.callLoop llms dp K beh entries.length entries.length 0 st none 0 := by
    unfold LLMService.call LLMService.applyOverride LLMService.callFromState
    rw [hget]
  have hpos : 1 ≤ entries.length := List.length_pos.mpr hne
  obtain ⟨e, st1, hloop, het⟩ :=
    callLoop_all_transient llms dp K beh entries hget hbeh
      entries.length 0 st none 0 hllm (by omega) hpos
  refine ⟨e, st1, ?_, het⟩
  rw [hcall, hloop]
  have : (0 : Nat) + (entries.length - 1) = entries.length - 1 := by omega
  rw [this]

/-- C1 witness: the amended behaviour evaluated on the shipped groq
registry (N = 4) with a constantly rate-limited behaviour. -/
theorem c1_all_transient_witness :
    ∃ e st1,
      LLMService.call LLMRegistry.LLMS "groq" 3
          (fun _ _ => (.error .rateLimitError : Except LLMError Unit)) none
          { llm := some { cls := "ChatGroq", model := "qwen/qwen3-32b" }, currentIndex := 0 }
        = (.error (.exhausted 4 (some e)), st1, 3)
      ∧ e.isTransient = true :=
  c1_all_transient_n_minus_one_switches LLMRegistry.LLMS "groq" 3
    (fun _ _ => (.error .rateLimitError : Except LLMError Unit))
    (dictGetD LLMRegistry.LLMS "groq" [])
    { llm := some { cls := "ChatGroq", model := "qwen/qwen3-32b" }, currentIndex := 0 }
    (by decide) (by decide) (by decide)
    (fun m j => ⟨.rateLimitError, rfl, rfl⟩)

/-- C1 counterexample to the claim as stated: on the shipped groq
registry, N = 4 models all failing transiently yield only 3 fallback
switches, not 4 — the loop breaks without switching once the tried-count
reaches N. -/
theorem c1_switch_count_counterexample :
    LLMService.call LLMRegistry.LLMS "groq" 3
        (fun _ _ => (.error .rateLimitError : Except LLMError Unit)) none
        { llm := some { cls := "ChatGroq", model := "qwen/qwen3-32b" }, currentIndex := 0 }
      = (.error (.exhausted 4 (some .rateLimitError)),
         { llm := some { cls := "ChatGroq", model := "openai/gpt-oss-20b" }, currentIndex := 3 },
         3)
    ∧ (3 : Nat) ≠ (dictGetD LLMRegistry.LLMS "groq" []).length := by
  decide

/-- C3 (confirmed). The retry wrapper retries only on
classified-transient errors: a non-transient first failure ends the
wrapper after exactly one attempt whatever the cap, while a transient first
failure is retried; and in `call`, a model failing non-transiently is
treated as exhausted-for-this-model — the loop switches to the next model,
whose success answers the whole call with exactly one fallback switch. -/
theorem c3_transient_only_retry_and_fallback :
    (∀ (α : Type) (K : Nat) (attempt : Nat → Except LLMError α) (e : LLMError),
        attempt 0 = .error e → e.isTransient = false →
        LLMService._call_with_retry K attempt = (.error e, 1))
    ∧ (∀ (α : Type) (K : Nat) (attempt : Nat → Except LLMError α) (e : LLMError) (r : α),
        attempt 0 = .error e → e.isTransient = true → 2 ≤ K → attempt 1 = .ok r →
        LLMService._call_with_retry K attempt = (.ok r, 2))
    ∧ (∀ (α : Type) (llms : Registry) (dp : String) (K : Nat)
        (beh : ChatModel → Nat → Except LLMError α) (entries : List ModelEntry)
        (st : LLMState) (m0 : ChatModel) (e : LLMError) (r : α),
        dictGet llms dp = some entries → 2 ≤ entries.length →
        st.llm = some m0 → beh m0 0 = .error e → e.isTransient = false →
        beh (entries.getD ((st.currentIndex + 1) % entries.length) default).llm 0 = .ok r →
        LLMService.call llms dp K beh none st
          = (.ok r,
             { llm := some (entries.getD ((st.currentIndex + 1) % entries.length) default).llm,
               currentIndex := (st.currentIndex + 1) % entries.length },
             1)) := by
  refine ⟨fun α K attempt e h ht => call_with_retry_nontransient K attempt e h ht, ?_, ?_⟩
  · intro α K attempt e r h0 ht hK h1
    obtain ⟨k, rfl⟩ : ∃ k, K = k + 2 := ⟨K - 2, by omega⟩
    unfold LLMService._call_with_retry
    have hK1 : k + 2 - 1 = k + 1 := by omega
    rw [hK1]
    rw [LLMService.retryGo.eq_2, h0]
    simp only [ht, if_true]
    cases k with
    | zero => rw [LLMService.retryGo.eq_1, h1]
    | succ k1 => rw [LLMService.retryGo.eq_2, h1]
  · intro α llms dp K beh entries st m0 e r hget hlen hm hbeh0 hnt hnext
    have hcall : LLMService.call llms dp K beh none st
        = LLMService.callLoop llms dp K beh entries.length entries.length 0 st none 0 := by
      unfold LLMService.call LLMService.applyOverride LLMService.callFromState
      rw [hget]
    rw [hcall]
    obtain ⟨l, hl⟩ : ∃ l, entries.length = l + 2 := ⟨entries.length - 2, by omega⟩
    have hstep1 : LLMService._call_with_retry K (LLMService.attemptOn beh st)
        = (.error e, 1) := by
      refine call_with_retry_nontransient K _ e ?_ hnt
      unfold LLMService.attemptOn
      rw [hm]
      exact hbeh0
    have hsw : LLMService._switch_to_next_model llms dp st
        = (true, { llm := some (entries.getD ((st.currentIndex + 1) % entries.length) default).llm,
                   currentIndex := (st.currentIndex + 1) % entries.length }) := by
      unfold LLMService._switch_to_next_model
      simp only [hget]
      rw [if_neg (by omega : ¬ entries.length = 0)]
    have hstep2 : LLMService._call_with_retry K
        (LLMService.attemptOn beh
          { llm := some (entries.getD ((st.currentIndex + 1) % entries.length) default).llm,
            currentIndex := (st.currentIndex + 1) % entries.length })
        = (.ok r, 1) := by
      refine call_with_retry_first_ok K _ r ?_
      unfold LLMService.attemptOn
      exact hnext
    rw [hl]
    have hl' : l + 2 = (l + 1) + 1 := rfl
    rw [hl']
    rw [LLMService.callLoop.eq_2, hstep1]
    simp only []
    rw [if_neg (by omega : ¬ (l + 1) + 1 ≤ 0 + 1)]
    rw [hl] at hsw
    rw [hl'] at hsw
    rw [hsw]
    simp only []
    rw [LLMService.callLoop.eq_2]
    rw [hl, hl'] at hstep2
    rw [hstep2]

/-- C3 witness: on the shipped groq registry the first model failing
non-transiently is followed by the second model's success after exactly one
fallback switch. -/
theorem c3_transient_only_retry_and_fallback_witness :
    LLMService.call LLMRegistry.LLMS "groq" 3
        (fun m _ => if m.model == "qwen/qwen3-32b"
                    then (.error .openAIError : Except LLMError Nat) else .ok 7) none
        { llm := some { cls := "ChatGroq", model := "qwen/qwen3-32b" }, currentIndex := 0 }
      = (.ok 7,
         { llm := some { cls := "ChatGroq", model := "moonshotai/kimi-k2-instruct-0905" },
           currentIndex := 1 },
         1) :=
  c3_transient_only_retry_and_fallback.2.2 Nat LLMRegistry.LLMS "groq" 3
    (fun m _ => if m.model == "qwen/qwen3-32b"
                then (.error .openAIError : Except LLMError Nat) else .ok 7)
    (dictGetD LLMRegistry.LLMS "groq" [])
    { llm := some { cls := "ChatGroq", model := "qwen/qwen3-32b" }, currentIndex := 0 }
    { cls := "ChatGroq", model := "qwen/qwen3-32b" } .openAIError 7
    (by decide) (by decide) rfl (by decide) (by decide) (by decide)

/-- The shipped registry holds exactly the keys `groq`, `openai` and
`gemini`, so a successful subscript pins the provider string to one of
them. -/
theorem dictGet_LLMS_provider {p : String} {v : List ModelEntry}
    (h : dictGet LLMRegistry.LLMS p = some v) :
    p = "groq" ∨ p = "openai" ∨ p = "gemini" := by
  by_cases h1 : p = "groq"
  · exact Or.inl h1
  · by_cases h2 : p = "openai"
    · exact Or.inr (Or.inl h2)
    · by_cases h3 : p = "gemini"
      · exact Or.inr (Or.inr h3)
      · exfalso
        have e1 : (("groq" : String) == p) = false :=
          beq_eq_false_iff_ne.mpr (Ne.symm h1)
        have e2 : (("openai" : String) == p) = false :=
          beq_eq_false_iff_ne.mpr (Ne.symm h2)
        have e3 : (("gemini" : String) == p) = false :=
          beq_eq_false_iff_ne.mpr (Ne.symm h3)
        unfold dictGet LLMRegistry.LLMS at h
        simp [List.find?_cons, e1, e2, e3] at h

/-- A successful linear search for a name inside a provider's entries gives
an index for that name in the provider's name list, from any start
offset. -/
theorem findIdx?_of_find?_name (n : String) :
    ∀ (entries : List ModelEntry) (entry : ModelEntry),
      entries.find? (fun e => e.name == n) = some entry →
      ∀ (i0 : Nat), ∃ i,
        (entries.map (fun e => e.name)).findIdx? (fun s => s == n) i0 = some i := by
  intro entries
  induction entries with
  | nil => intro entry h; cases h
  | cons a es ih =>
      intro entry h i0
      by_cases ha : (a.name == n) = true
      · refine ⟨i0, ?_⟩
        simp only [List.map_cons, List.findIdx?_cons, ha, if_true]
      · rw [List.find?_cons_of_neg _ (by simpa using ha)] at h
        obtain ⟨i, hi⟩ := ih entry h (i0 + 1)
        refine ⟨i, ?_⟩
        simp only [List.map_cons, List.findIdx?_cons, ha, if_false]
        exact hi

/-- C6 counterexample to the claim as stated. For an unknown provider
the error is `ValueError("Invalid Provider: cohere")`, which names the
provider but lists no known model names; and a known provider written in a
different case fails with a `KeyError` — a third failure mode — because the
membership check lowercases the provider but the subscript access does
not. -/
theorem c6_unknown_provider_counterexample :
    LLMRegistry.get LLMRegistry.LLMS "cohere" "some-model" []
        = .error (.valueErrorInvalidProvider "cohere")
    ∧ (PyError.valueErrorInvalidProvider "cohere").message = "Invalid Provider: cohere"
    ∧ LLMRegistry.get LLMRegistry.LLMS "GROQ" "qwen/qwen3-32b" []
        = .error (.keyError "GROQ") := by
  decide

/-- C6 (amended). `get` returns the registered descriptor when the
provider key is present verbatim and the name is found; an unknown
(lower-cased) provider fails with an Invalid-Provider `ValueError` whose
message names only the provider; a provider whose lower-cased form is known
but whose verbatim form is not a key fails with `KeyError`; and a missing
model name fails with a `ValueError` listing the provider's known model
names. -/
theorem c6_get_error_contract (p n : String) (kw : List (String × String)) :
    ((dictKeys LLMRegistry.LLMS).contains (pyLower p) = false →
        LLMRegistry.get LLMRegistry.LLMS p n kw
            = .error (.valueErrorInvalidProvider p)
          ∧ (PyError.valueErrorInvalidProvider p).message = "Invalid Provider: " ++ p)
    ∧ ((dictKeys LLMRegistry.LLMS).contains (pyLower p) = true →
        dictGet LLMRegistry.LLMS p = none →
        LLMRegistry.get LLMRegistry.LLMS p n kw = .error (.keyError p))
    ∧ (∀ entries entry, dictGet LLMRegistry.LLMS p = some entries →
        entries.find? (fun e => e.name == n) = some entry →
        LLMRegistry.get LLMRegistry.LLMS p n kw = .ok entry.llm)
    ∧ (∀ entries, dictGet LLMRegistry.LLMS p = some entries →
        entries.find? (fun e => e.name == n) = none →
        LLMRegistry.get LLMRegistry.LLMS p n kw
          = .error (.valueErrorModelNotFound n (entries.map (fun e => e.name)))) := by
  refine ⟨?_, ?_, ?_, ?_⟩
  · intro hc
    refine ⟨?_, rfl⟩
    unfold LLMRegistry.get
    rw [if_pos (by simpa using hc)]
  · intro hc hnone
    unfold LLMRegistry.get
    rw [if_neg (by simpa using hc)]
    rw [hnone]
  · intro entries entry hsome hfind
    rcases dictGet_LLMS_provider hsome with rfl | rfl | rfl <;>
      · unfold LLMRegistry.get
        rw [if_neg (by decide)]
        rw [hsome]
        simp only []
        rw [hfind]
  · intro entries hsome hfind
    rcases dictGet_LLMS_provider hsome with rfl | rfl | rfl
    · have hd : dictGet LLMRegistry.LLMS "groq"
          = some (dictGetD LLMRegistry.LLMS "groq" []) := by decide
      rw [hd] at hsome
      injection hsome with he
      subst he
      unfold LLMRegistry.get
      rw [if_neg (by decide), hd]
      simp only []
      rw [hfind]
      rfl
    · have hd : dictGet LLMRegistry.LLMS "openai"
          = some (dictGetD LLMRegistry.LLMS "openai" []) := by decide
      rw [hd] at hsome
      injection hsome with he
      subst he
      unfold LLMRegistry.get
      rw [if_neg (by decide), hd]
      simp only []
      rw [hfind]
      rfl
    · have hd : dictGet LLMRegistry.LLMS "gemini"
          = some (dictGetD LLMRegistry.LLMS "gemini" []) := by decide
      rw [hd] at hsome
      injection hsome with he
      subst he
      unfold LLMRegistry.get
      rw [if_neg (by decide), hd]
      simp only []
      rw [hfind]
      rfl

/-- C6 witness: the amended contract evaluated at an unknown provider
and at a missing model name of the shipped registry. -/
theorem c6_get_error_contract_witness :
    (LLMRegistry.get LLMRegistry.LLMS "cohere" "m" []
        = .error (.valueErrorInvalidProvider "cohere")
      ∧ (PyError.valueErrorInvalidProvider "cohere").message
          = "Invalid Provider: " ++ "cohere")
    ∧ LLMRegistry.get LLMRegistry.LLMS "openai" "gpt-3" []
        = .error (.valueErrorModelNotFound "gpt-3"
            ((dictGetD LLMRegistry.LLMS "openai" []).map (fun e => e.name))) :=
  ⟨(c6_get_error_contract "cohere" "m" []).1 (by decide),
   (c6_get_error_contract "openai" "gpt-3" []).2.2.2
     (dictGetD LLMRegistry.LLMS "openai" []) (by decide) (by decide)⟩

/-- C7 (confirmed). For every integer index and a configured default
provider that is one of the registry's keys, `get_model_at_index` never
raises: in range it returns the entry at that position of the default
provider's sequence, and out of range it falls back to the first entry of
the hard-coded `groq` list. The default provider is spec-modelled as one of
the registry keys, its defining configuration module not being among the
sources. -/
theorem c7_index_in_range_or_first_entry (dp : String) (idx : Int)
    (hdp : dp = "groq" ∨ dp = "openai" ∨ dp = "gemini") :
    ∃ entry, LLMRegistry.get_model_at_index LLMRegistry.LLMS dp idx = .ok entry
      ∧ ((0 ≤ idx ∧ idx <
            (((dictGetD LLMRegistry.LLMS (pyLower dp) []).map (fun e => e.name)).length : Int)) →
          entry = (dictGetD LLMRegistry.LLMS dp []).getD idx.toNat default)
      ∧ (¬ (0 ≤ idx ∧ idx <
            (((dictGetD LLMRegistry.LLMS (pyLower dp) []).map (fun e => e.name)).length : Int)) →
          entry = { name := "qwen/qwen3-32b",
                    llm := { cls := "ChatGroq", model := "qwen/qwen3-32b" },
                    extra_details := "" }) := by
  rcases hdp with rfl | rfl | rfl
  · by_cases hr : 0 ≤ idx ∧ idx <
        (((dictGetD LLMRegistry.LLMS (pyLower "groq") []).map (fun e => e.name)).length : Int)
    · have hL : (((dictGetD LLMRegistry.LLMS (pyLower "groq") []).map
          (fun e => e.name)).length : Int) = 4 := by decide
      obtain ⟨h0, h4⟩ := hr
      rw [hL] at h4
      interval_cases idx <;>
        exact ⟨(dictGetD LLMRegistry.LLMS "groq" []).getD _ default,
          by decide, fun _ => rfl, fun hcon => absurd (by decide) hcon⟩
    · refine ⟨{ name := "qwen/qwen3-32b",
                llm := { cls := "ChatGroq", model := "qwen/qwen3-32b" },
                extra_details := "" }, ?_, fun hin => absurd hin hr, fun _ => rfl⟩
      unfold LLMRegistry.get_model_at_index
      rw [if_neg hr]
      decide
  · by_cases hr : 0 ≤ idx ∧ idx <
        (((dictGetD LLMRegistry.LLMS (pyLower "openai") []).map (fun e => e.name)).length : Int)
    · have hL : (((dictGetD LLMRegistry.LLMS (pyLower "openai") []).map
          (fun e => e.name)).length : Int) = 3 := by decide
      obtain ⟨h0, h3⟩ := hr
      rw [hL] at h3
      interval_cases idx <;>
        exact ⟨(dictGetD LLMRegistry.LLMS "openai" []).getD _ default,
          by decide, fun _ => rfl, fun hcon => absurd (by decide) hcon⟩
    · refine ⟨{ name := "qwen/qwen3-32b",
                llm := { cls := "ChatGroq", model := "qwen/qwen3-32b" },
                extra_details := "" }, ?_, fun hin => absurd hin hr, fun _ => rfl⟩
      unfold LLMRegistry.get_model_at_index
      rw [if_neg hr]
      decide
  · by_cases hr : 0 ≤ idx ∧ idx <
        (((dictGetD LLMRegistry.LLMS (pyLower "gemini") []).map (fun e => e.name)).length : Int)
    · exfalso
      have hL : (((dictGetD LLMRegistry.LLMS (pyLower "gemini") []).map
          (fun e => e.name)).length : Int) = 0 := by decide
      obtain ⟨h0, hlt⟩ := hr
      rw [hL] at hlt
      omega
    · refine ⟨{ name := "qwen/qwen3-32b",
                llm := { cls := "ChatGroq", model := "qwen/qwen3-32b" },
                extra_details := "" }, ?_, fun hin => absurd hin hr, fun _ => rfl⟩
      unfold LLMRegistry.get_model_at_index
      rw [if_neg hr]
      decide

/-- C7 witness: an out-of-range index on the shipped registry falls
back to the first groq entry instead of raising. -/
theorem c7_index_in_range_or_first_entry_witness :
    ∃ entry, LLMRegistry.get_model_at_index LLMRegistry.LLMS "groq" (-5) = .ok entry
      ∧ ((0 ≤ (-5 : Int) ∧ (-5 : Int) <
            (((dictGetD LLMRegistry.LLMS (pyLower "groq") []).map (fun e => e.name)).length : Int)) →
          entry = (dictGetD LLMRegistry.LLMS "groq" []).getD (Int.toNat (-5)) default)
      ∧ (¬ (0 ≤ (-5 : Int) ∧ (-5 : Int) <
            (((dictGetD LLMRegistry.LLMS (pyLower "groq") []).map (fun e => e.name)).length : Int)) →
          entry = { name := "qwen/qwen3-32b",
                    llm := { cls := "ChatGroq", model := "qwen/qwen3-32b" },
                    extra_details := "" }) :=
  c7_index_in_range_or_first_entry "groq" (-5) (Or.inl rfl)

/-- Inversion of a successful `get`: the provider key was present verbatim
and the linear search found the entry whose client is returned. -/
theorem get_ok_inversion (llms : Registry) (p n : String)
    (kw : List (String × String)) (m : ChatModel)
    (h : LLMRegistry.get llms p n kw = .ok m) :
    ∃ entries entry, dictGet llms p = some entries
      ∧ entries.find? (fun e => e.name == n) = some entry
      ∧ entry.llm = m := by
  unfold LLMRegistry.get at h
  by_cases hc : ¬ ((dictKeys llms).contains (pyLower p) = true)
  · rw [if_pos hc] at h
    cases h
  · rw [if_neg hc] at h
    rcases hd : dictGet llms p with _ | entries
    · rw [hd] at h
      simp only [] at h
      cases h
    · rw [hd] at h
      simp only [] at h
      rcases hf : entries.find? (fun e => e.name == n) with _ | entry
      · rw [hf] at h
        simp only [LLMRegistry.get_all_names] at h
        cases h
      · rw [hf] at h
        injection h with h1
        exact ⟨entries, entry, rfl, hf, h1⟩

/-- C9 (confirmed). An explicit `(provider, model)` override that the
registry rejects makes `call` fail with the registry's error before any
attempt against any model — the outcome does not depend on the behaviour
function at all — while a known override installs the requested client and
resets the current index to that pair's position in the provider's name
list before the retry/fallback loop is entered. -/
theorem c9_explicit_override (dp : String) (K : Nat) (p n : String)
    (kw : List (String × String)) (st : LLMState) :
    (∀ er, LLMRegistry.get LLMRegistry.LLMS p n kw = .error er →
        ∀ (α : Type) (beh : ChatModel → Nat → Except LLMError α),
          LLMService.call LLMRegistry.LLMS dp K beh (some (p, n, kw)) st
            = (.error (.py er), st, 0))
    ∧ (∀ m, LLMRegistry.get LLMRegistry.LLMS p n kw = .ok m →
        ∃ i, ((dictGetD LLMRegistry.LLMS (pyLower p) []).map (fun e => e.name)).findIdx?
              (fun s => s == n) = some i
          ∧ ∀ (α : Type) (beh : ChatModel → Nat → Except LLMError α),
              LLMService.call LLMRegistry.LLMS dp K beh (some (p, n, kw)) st
                = LLMService.callFromState LLMRegistry.LLMS dp K beh
                    { llm := some m, currentIndex := i }) := by
  constructor
  · intro er her α beh
    unfold LLMService.call LLMService.applyOverride
    simp only [her]
  · intro m hm
    obtain ⟨entries, entry, hd, hf, hllm⟩ :=
      get_ok_inversion LLMRegistry.LLMS p n kw m hm
    have hps := dictGet_LLMS_provider hd
    have hpy : pyLower p = p := by
      rcases hps with rfl | rfl | rfl <;> decide
    have hdd : dictGetD LLMRegistry.LLMS (pyLower p) [] = entries := by
      rw [hpy]
      unfold dictGetD
      rw [hd]
      rfl
    obtain ⟨i, hi⟩ := findIdx?_of_find?_name n entries entry hf 0
    refine ⟨i, ?_, ?_⟩
    · rw [hdd]
      exact hi
    · intro α beh
      unfold LLMService.call LLMService.applyOverride
      simp only [hm, LLMRegistry.get_all_names]
      rw [hdd, hi]
      rfl

/-- C9 witness: a known override on the shipped registry resets the
index to position 1 of the groq list before the loop. -/
theorem c9_explicit_override_witness :
    ∃ i, ((dictGetD LLMRegistry.LLMS (pyLower "groq") []).map (fun e => e.name)).findIdx?
          (fun s => s == "moonshotai/kimi-k2-instruct-0905") = some i
      ∧ ∀ (α : Type) (beh : ChatModel → Nat → Except LLMError α),
          LLMService.call LLMRegistry.LLMS "groq" 3 beh
              (some ("groq", "moonshotai/kimi-k2-instruct-0905", []))
              { llm := some { cls := "ChatGroq", model := "qwen/qwen3-32b" }, currentIndex := 0 }
            = LLMService.callFromState LLMRegistry.LLMS "groq" 3 beh
                { llm := some { cls := "ChatGroq", model := "moonshotai/kimi-k2-instruct-0905" },
                  currentIndex := i } :=
  (c9_explicit_override "groq" 3 "groq" "moonshotai/kimi-k2-instruct-0905" []
      { llm := some { cls := "ChatGroq", model := "qwen/qwen3-32b" }, currentIndex := 0 }).2
    { cls := "ChatGroq", model := "moonshotai/kimi-k2-instruct-0905" } (by decide)
